import Mathlib

/-!
Verification development for the `cowl` reconciliation (merge) engine.

The TypeScript sources are shallowly embedded as pure Lean functions.
External effects (child processes, the filesystem) are resolved through an
explicit environment record (`Env`, `CowEnv`) whose fields hold the outcome
each call site would observe, and every observable side effect is recorded
as an `Action` in an ordered trace.  `fail(message)` (process exit) is
modelled by `Except.error` carrying the message together with the trace of
actions already performed.
-/

namespace Cowl

/-- Result of `run(cmd, args)` (`spawnSync`): exit status, captured output,
and the `error` object's `code`/`message` fields (for spawn failures). -/
structure RunResult where
  status : Int
  stdout : String
  stderr : String
  errCode : Option String
  errMsg : Option String
deriving Repr, DecidableEq

/-- A successful external command with empty output. -/
def okRes : RunResult := ⟨0, "", "", none, none⟩

/-- `resultError` from utils: `result.stderr || result.stdout ||
result.error?.message || "unknown error"` (JS `||`, empty string falsy). -/
def resultError (r : RunResult) : String :=
  if r.stderr ≠ "" then r.stderr
  else if r.stdout ≠ "" then r.stdout
  else match r.errMsg with
    | some m => m
    | none => "unknown error"

/-- `commandExists` from utils: spawn `cmd --version`; `false` on ENOENT,
otherwise `status === 0`. -/
def commandExists (probe : RunResult) : Bool :=
  if probe.errCode = some "ENOENT" then false else probe.status = 0

/-- Observable side effects of the engine, in execution order. -/
inductive Action where
  /-- `run(cmd, args)`: spawning an external process. -/
  | runCmd : String → List String → Action
  /-- `console.error(msg)`: a diagnostic on the error stream. -/
  | warn : String → Action
  /-- `writeFileSync(path, content)`: the rsync `--files-from` list. -/
  | writeFileList : String → String → Action
  /-- `mkdirSync(path, {recursive})` via `ensureDir`. -/
  | mkdirp : String → Action
  /-- `rmSync(path, {recursive})` on a directory tree. -/
  | rmTree : String → Action
  /-- `deleteMeta(variationPath)`: removing the registry entry. -/
  | deleteMetaFile : String → Action
deriving Repr, DecidableEq

/-- The variation registry record (`Meta` in types.ts). -/
structure Meta where
  version : Nat
  name : String
  project : String
  sourcePath : String
  variationPath : String
  createdAt : String
  gitBase : Option String
deriving Repr, DecidableEq

/-- Environment observed by one `cowl merge` invocation: what each
filesystem probe and each spawned command would report. -/
structure Env where
  /-- `COWL_ROOT` (XDG data directory, an input of the run). -/
  cowlRoot : String
  /-- stands for `shortHash(sourcePath)` (sha1 digest slice, external crypto). -/
  sourceHash : String
  /-- `existsSync(variationPath)`. -/
  variationExists : Bool
  /-- `existsSync(getMetaPath(variationPath))`. -/
  metaFileExists : Bool
  /-- what `JSON.parse` of the registry file yields; `none` models a throw
  (unparseable JSON). -/
  metaParse : Option Meta
  /-- `existsSync(join(sourcePath, ".git"))` (`hasGitRepo(sourcePath)`). -/
  sourceHasDotGit : Bool
  /-- result of `run("rsync", ["--version"])` inside `commandExists`. -/
  rsyncProbe : RunResult
  /-- result of `git show-ref --verify refs/heads/<branch>`. -/
  showRef : RunResult
  /-- result of the chosen `git checkout` command. -/
  checkout : RunResult
  /-- result of `git diff --binary <base>`. -/
  gitDiff : RunResult
  /-- result of `git apply --3way [--check]`. -/
  gitApply : RunResult
  /-- result of `git ls-files --others --exclude-standard -z`. -/
  gitLsFiles : RunResult
  /-- result of the whole-tree mirror rsync. -/
  rsyncMirror : RunResult
  /-- result of the untracked-file rsync. -/
  rsyncUntracked : RunResult
  /-- `mkdtempSync(join(os.tmpdir(), "cowl-"))`. -/
  tmpDir : String
deriving Repr, DecidableEq

/-- Outcome of a merge phase: `error (message, trace)` models `fail` /
`process.exit(1)` after the traced actions ran; `ok trace` is success. -/
abbrev MergeRes := Except (String × List Action) (List Action)

/-- Trace of actions performed, whether the run failed or succeeded. -/
def resTrace : MergeRes → List Action
  | .error e => e.2
  | .ok tr => tr

/-! ### String helpers translated from utils.ts (JS string primitives are
re-implemented structurally so that concrete runs evaluate). -/

/-- Whitespace for the model of `String.prototype.trim`. -/
def isWhite (c : Char) : Bool :=
  c = ' ' || c = '\t' || c = '\n' || c = '\r' || c = '\x0b' || c = '\x0c'

/-- Model of JS `s.trim()`. -/
def jsTrim (s : String) : String :=
  String.mk (((s.data.dropWhile isWhite).reverse.dropWhile isWhite).reverse)

/-- Model of JS `s.toLowerCase()` (ASCII). -/
def jsToLower (s : String) : String :=
  String.mk (s.data.map Char.toLower)

/-- Characters kept by `slugify`'s `[^a-z0-9]` class. -/
def isSlugChar (c : Char) : Bool :=
  (('a' ≤ c) && (c ≤ 'z')) || (('0' ≤ c) && (c ≤ '9'))

/-- Replace every maximal run of non-slug characters by a single `'-'`
(the `replace(/[^a-z0-9]+/g, "-")` step).  The flag says whether we are
inside such a run. -/
def squashAux : Bool → List Char → List Char
  | _, [] => []
  | inRun, c :: rest =>
    if isSlugChar c then c :: squashAux false rest
    else if inRun then squashAux true rest
    else '-' :: squashAux true rest

/-- Strip leading and trailing dashes (`replace(/^-+|-+$/g, "")`). -/
def stripDashes (l : List Char) : List Char :=
  ((l.dropWhile (fun c => c = '-')).reverse.dropWhile (fun c => c = '-')).reverse

/-- `slugify` from utils.ts: lower-case the trimmed input, squash runs of
non-alphanumerics to dashes, strip outer dashes. -/
def slugify (input : String) : String :=
  String.mk (stripDashes (squashAux false (jsToLower (jsTrim input)).data))

/-- Model of `path.basename`: last nonempty `/`-separated component. -/
def basenameOf (p : String) : String :=
  ((p.splitOn "/").filter (fun s => s ≠ "")).getLastD ""

/-- `projectSlug(sourcePath)` from utils.ts, with the sha1 `shortHash`
digest passed in as `hash` (crypto is external to the model). -/
def projectSlug (sourcePath : String) (hash : String) : String :=
  (if slugify (basenameOf sourcePath) = "" then "project"
   else slugify (basenameOf sourcePath)) ++ "-" ++ hash

/-- `getVariationPath`: `join(COWL_ROOT, projectSlug(sourcePath), slug)`. -/
def getVariationPathStr (env : Env) (sourcePath slug : String) : String :=
  env.cowlRoot ++ "/" ++ projectSlug sourcePath env.sourceHash ++ "/" ++ slug

/-- The variation path a `merge <name>` invocation resolves. -/
def variationPathOf (env : Env) (sourcePath : String) (positionals : List String) : String :=
  getVariationPathStr env sourcePath (slugify ((positionals.head?).getD ""))

/-- Split on NUL, as JS `s.split("\x00")`. -/
def splitOnNulAux : List Char → List Char → List String
  | [], acc => [String.mk acc.reverse]
  | c :: rest, acc =>
    if c = '\x00' then String.mk acc.reverse :: splitOnNulAux rest []
    else splitOnNulAux rest (c :: acc)

/-- JS `s.split("\x00")`. -/
def splitOnNul (s : String) : List String := splitOnNulAux s.data []

/-! ### meta.ts -/

/-- `readMeta(variationPath)`: `null` when the registry file is missing,
`null` when `JSON.parse` throws, the parsed record otherwise. -/
def readMeta (env : Env) : Option Meta :=
  if env.metaFileExists then env.metaParse else none

/-! ### copy.ts -/

/-- `ensureRsync()`: `commandExists("rsync")` (spawning `rsync --version`),
failing when rsync is unavailable. -/
def ensureRsync (env : Env) (tr : List Action) : MergeRes :=
  let tr := tr ++ [Action.runCmd "rsync" ["--version"]]
  if commandExists env.rsyncProbe then Except.ok tr
  else Except.error ("rsync is required for this operation. Install rsync or use git.", tr)

/-- `copyUntrackedWithRsync(variationPath, sourcePath, files)`:
write the NUL-separated file list, run `rsync -a --from0 --files-from=…`.
The file list is passed through verbatim: no entry is filtered out. -/
def copyUntrackedWithRsync (variationPath sourcePath : String) (files : List String)
    (env : Env) (tr : List Action) : MergeRes :=
  match ensureRsync env tr with
  | .error e => .error e
  | .ok tr =>
    if files = [] then .ok tr
    else
      let listPath := env.tmpDir ++ "/files"
      if files = [] then .ok tr
      else
        let content := String.intercalate "\x00" files ++ "\x00"
        let tr := tr ++ [Action.writeFileList listPath content]
        let tr := tr ++ [Action.runCmd "rsync"
          ["-a", "--from0", "--files-from=" ++ listPath,
           variationPath ++ "/", sourcePath ++ "/"]]
        if env.rsyncUntracked.status ≠ 0 then
          .error ("rsync failed: " ++ resultError env.rsyncUntracked, tr)
        else .ok tr

/-- The argument list `mergeWithRsync` builds for the mirror rsync:
`-a`, `--dry-run` iff dry-run, `--delete` iff the caller opted in,
then `variation/ source/`.  No other argument is ever added. -/
def mergeWithRsyncArgs (sourcePath variationPath : String) (dryRun allowDelete : Bool) :
    List String :=
  ["-a"] ++ (if dryRun then ["--dry-run"] else [])
        ++ (if allowDelete then ["--delete"] else [])
        ++ [variationPath ++ "/", sourcePath ++ "/"]

/-- `mergeWithRsync(sourcePath, variationPath, dryRun, allowDelete)`. -/
def mergeWithRsync (sourcePath variationPath : String) (dryRun allowDelete : Bool)
    (env : Env) (tr : List Action) : MergeRes :=
  match ensureRsync env tr with
  | .error e => .error e
  | .ok tr =>
    let tr := tr ++ [Action.runCmd "rsync" (mergeWithRsyncArgs sourcePath variationPath dryRun allowDelete)]
    if env.rsyncMirror.status ≠ 0 then
      .error ("rsync failed: " ++ resultError env.rsyncMirror, tr)
    else .ok tr

/-! ### utils.ts `ensureBranch` and git.ts `mergeWithGit` -/

/-- `ensureBranch(path, branchName)`: probe `git show-ref`, then check the
branch out (`checkout` or `checkout -b`); checkout failure is fatal. -/
def ensureBranch (path branchName : String) (env : Env) (tr : List Action) : MergeRes :=
  let tr := tr ++ [Action.runCmd "git"
    ["-C", path, "show-ref", "--verify", "refs/heads/" ++ branchName]]
  let args :=
    if env.showRef.status = 0 then ["-C", path, "checkout", branchName]
    else ["-C", path, "checkout", "-b", branchName]
  let tr := tr ++ [Action.runCmd "git" args]
  if env.checkout.status ≠ 0 then
    .error ("git checkout failed: " ++ resultError env.checkout, tr)
  else .ok tr

/-- The untracked files `mergeWithGit` computes:
`git ls-files --others --exclude-standard -z` output split on NUL with
empty entries dropped (`split("\x00").filter(Boolean)`). -/
def untrackedFiles (env : Env) : List String :=
  (splitOnNul env.gitLsFiles.stdout).filter (fun s => s ≠ "")

/-- The diff / apply / untracked part of `mergeWithGit` (everything after
the branch switch): binary diff against the base commit, three-way apply
(`--check` on dry-run) when the diff is nonempty, untracked enumeration,
and (outside dry-run) untracked-file propagation. -/
def mergeWithGitCore (sourcePath variationPath baseCommit : String) (dryRun : Bool)
    (env : Env) (tr : List Action) : MergeRes :=
  let tr := tr ++ [Action.runCmd "git" ["-C", variationPath, "diff", "--binary", baseCommit]]
  if env.gitDiff.status ≠ 0 then .error ("git diff failed: " ++ resultError env.gitDiff, tr)
  else
    let step2 : MergeRes :=
      if (jsTrim env.gitDiff.stdout).length > 0 then
        let applyArgs := ["-C", sourcePath, "apply", "--3way"] ++ (if dryRun then ["--check"] else [])
        let tr := tr ++ [Action.runCmd "git" applyArgs]
        if env.gitApply.status ≠ 0 then .error ("git apply failed: " ++ resultError env.gitApply, tr)
        else .ok tr
      else .ok tr
    match step2 with
    | .error e => .error e
    | .ok tr =>
      let tr := tr ++ [Action.runCmd "git"
        ["-C", variationPath, "ls-files", "--others", "--exclude-standard", "-z"]]
      if env.gitLsFiles.status ≠ 0 then
        .error ("git ls-files failed: " ++ resultError env.gitLsFiles, tr)
      else
        if !dryRun then copyUntrackedWithRsync variationPath sourcePath (untrackedFiles env) env tr
        else .ok tr

/-- JS truthiness of the `branchName` parameter (`branchName && …`): a
string was passed and it is nonempty. -/
def branchRequested : Option String → Bool
  | some b => b ≠ ""
  | none => false

/-- `mergeWithGit(sourcePath, variationPath, baseCommit, dryRun, branchName)`:
`ensureBranch` first (only when a branch name was passed and not dry-run),
then the diff / apply / untracked sequence. -/
def mergeWithGit (sourcePath variationPath baseCommit : String) (dryRun : Bool)
    (branchName : Option String) (env : Env) (tr : List Action) : MergeRes :=
  let step1 : MergeRes :=
    if branchRequested branchName && !dryRun then
      ensureBranch sourcePath (branchName.getD "") env tr
    else .ok tr
  match step1 with
  | .error e => .error e
  | .ok tr => mergeWithGitCore sourcePath variationPath baseCommit dryRun env tr

/-! ### commands.ts `cmdMerge` -/

/-- The `meta?.sourcePath && meta.sourcePath !== sourcePath` guard passes
(JS truthiness: an absent record or an empty recorded path skips it). -/
def sourceMatchOk (meta : Option Meta) (sourcePath : String) : Bool :=
  match meta with
  | some m => !(m.sourcePath ≠ "" && m.sourcePath ≠ sourcePath)
  | none => true

/-- The `--branch` value check: absent is fine, a present value must not
trim to the empty string. -/
def branchValueOk : Option String → Bool
  | none => true
  | some s => jsTrim s ≠ ""

/-- `wantsBranch = flags.has("branch") || Boolean(branchOption)`. -/
def wantsBranchOf (flags : List String) (branchOpt : Option String) : Bool :=
  flags.contains "branch" ||
    (match branchOpt.map jsTrim with | some s => s ≠ "" | none => false)

/-- `branchName = wantsBranch ? branchOption ?? cowl/(meta?.name ?? slugify(name))
: undefined`. -/
def branchNameOf (flags : List String) (branchOpt : Option String)
    (meta : Option Meta) (name : String) : Option String :=
  if wantsBranchOf flags branchOpt then
    some (match branchOpt.map jsTrim with
      | some s => s
      | none => "cowl/" ++ (match meta with | some m => m.name | none => slugify name))
  else none

/-- `gitBase && hasGitRepo(sourcePath)`: the strategy selector condition
(JS truthiness: an empty recorded base counts as absent). -/
def selectsGit (meta : Option Meta) (sourceHasDotGit : Bool) : Bool :=
  (match meta.bind Meta.gitBase with | some s => s ≠ "" | none => false) && sourceHasDotGit

/-- The `console.error` prefix emitted when a branch is requested together
with dry-run on the git path. -/
def warnActs (flags : List String) (branchOpt : Option String) : List Action :=
  if wantsBranchOf flags branchOpt && flags.contains "dry-run" then
    [Action.warn "Skipping branch creation in dry-run mode."]
  else []

/-- The strategy dispatch of `cmdMerge`: git reconciler when a truthy base
revision is recorded and the source holds a `.git` entry; otherwise the
branch-with-mirror usage error, or the mirror reconciler. -/
def strategyDispatch (flags : List String) (branchOpt : Option String)
    (name variationPath sourcePath : String) (meta : Option Meta) (env : Env) : MergeRes :=
  if selectsGit meta env.sourceHasDotGit then
    mergeWithGit sourcePath variationPath (((meta.bind Meta.gitBase)).getD "")
      (flags.contains "dry-run") (branchNameOf flags branchOpt meta name) env
      (warnActs flags branchOpt)
  else if wantsBranchOf flags branchOpt then
    .error ("merge --branch requires a git repo root.", [])
  else
    mergeWithRsync sourcePath variationPath (flags.contains "dry-run")
      (flags.contains "delete") env []

/-- The `if (!dryRun && !keep)` cleanup step: remove the variation tree,
then `deleteMeta` (which removes the registry file when it exists). -/
def cleanupPhase (dryRun keep : Bool) (variationPath : String) (env : Env) :
    MergeRes → MergeRes
  | .error e => .error e
  | .ok tr =>
    if !dryRun && !keep then
      .ok (tr ++ [Action.rmTree variationPath]
             ++ (if env.metaFileExists then [Action.deleteMetaFile variationPath] else []))
    else .ok tr

/-- `cmdMerge(flags, options, positionals, sourcePath)`; `branchOpt` is
`options.branch`. -/
def cmdMerge (flags : List String) (branchOpt : Option String)
    (positionals : List String) (sourcePath : String) (env : Env) : MergeRes :=
  let name := (positionals.head?).getD ""
  if name = "" then .error ("Name is required.", [])
  else if slugify name = "" then .error ("Variation name resolves to empty path.", [])
  else
    let variationPath := getVariationPathStr env sourcePath (slugify name)
    if env.variationExists = false then
      .error ("Variation does not exist: " ++ variationPath, [])
    else
      let meta := readMeta env
      if sourceMatchOk meta sourcePath = false then
        .error ("Variation was created from: " ++
          (match meta with | some m => m.sourcePath | none => ""), [])
      else if branchValueOk branchOpt = false then
        .error ("Branch name cannot be empty.", [])
      else
        cleanupPhase (flags.contains "dry-run") (flags.contains "keep") variationPath env
          (strategyDispatch flags branchOpt name variationPath sourcePath meta env)

/-! ### copy.ts `cowCopyDir` (clone engine) -/

/-- Environment for one `cowCopyDir` call, including how the destination
evolves: whether each failed `cp` leaves a partially created destination. -/
structure CowEnv where
  /-- `process.platform === "darwin"`. -/
  darwin : Bool
  /-- `existsSync(destPath)` on entry. -/
  destExistsInitially : Bool
  /-- whether the parent directory already exists (`ensureDir`). -/
  parentExists : Bool
  /-- result of the CoW `cp` attempt. -/
  cowResult : RunResult
  /-- `existsSync(destPath)` after a failed CoW attempt. -/
  destPartialAfterCow : Bool
  /-- result of the plain-copy fallback. -/
  fallbackResult : RunResult
  /-- whether a failed fallback leaves a partially created destination. -/
  destPartialAfterFallback : Bool
deriving Repr, DecidableEq

/-- Outcome of `cowCopyDir`: the fatal message (if any), the action trace,
and whether the destination path exists when the call ends. -/
structure CowOutcome where
  err : Option String
  trace : List Action
  destExists : Bool
deriving Repr, DecidableEq

/-- Model of `path.dirname`. -/
def dirnameOf (p : String) : String :=
  String.intercalate "/" ((p.splitOn "/").dropLast)

/-- `cowCopyDir(sourcePath, destPath)`: refuse an existing destination; try
the CoW copy (`cp -c -R` on darwin, `cp -a --reflink=auto` otherwise); on
failure remove whatever the CoW attempt left, run the plain copy, and fail
only if that also fails, else warn that CoW was unavailable. -/
def cowCopyDir (sourcePath destPath : String) (env : CowEnv) : CowOutcome :=
  if env.destExistsInitially then
    { err := some ("Destination already exists: " ++ destPath), trace := [], destExists := true }
  else
    let tr := if env.parentExists then [] else [Action.mkdirp (dirnameOf destPath)]
    let cowArgs := if env.darwin then ["-c", "-R", sourcePath, destPath]
                   else ["-a", "--reflink=auto", sourcePath, destPath]
    let tr := tr ++ [Action.runCmd "cp" cowArgs]
    if env.cowResult.status = 0 then { err := none, trace := tr, destExists := true }
    else
      let tr := if env.destPartialAfterCow then tr ++ [Action.rmTree destPath] else tr
      let fbArgs := if env.darwin then ["-R", sourcePath, destPath]
                    else ["-a", sourcePath, destPath]
      let tr := tr ++ [Action.runCmd "cp" fbArgs]
      if env.fallbackResult.status ≠ 0 then
        { err := some ("Copy failed: " ++ resultError env.fallbackResult),
          trace := tr, destExists := env.destPartialAfterFallback }
      else
        { err := none,
          trace := tr ++ [Action.warn "CoW clone failed; fell back to standard copy."],
          destExists := true }

/-! ### The external directory-sync capability (spec §6) -/

/-- Modelled from the spec: the external directory-sync capability
`mirror(src, dst, {delete})` — every file of the variation overwrites the
source copy; a file present only in the source is removed exactly when the
delete option is set, and kept otherwise.  (rsync itself is not code of
this repository; this is its contract from spec §6/§4.4.) -/
def mirrorSem (variation source : String → Option String) (del : Bool)
    (f : String) : Option String :=
  match variation f with
  | some c => some c
  | none => if del then none else source f

/-! ### Concrete environments for witnesses and counterexamples -/

/-- A registry record with a recorded git base. -/
def metaGit : Meta :=
  ⟨1, "demo", "proj-abc123", "/work/proj", "/h/cowl/proj-abc123/demo",
   "2024-01-01T00:00:00.000Z", some "abc123"⟩

/-- The same record without a recorded base revision. -/
def metaNoBase : Meta := { metaGit with gitBase := none }

/-- A benign environment: variation and registry entry exist, the source
is a git repository root, every external command succeeds. -/
def envBase : Env :=
  { cowlRoot := "/h/cowl", sourceHash := "abc123",
    variationExists := true, metaFileExists := true,
    metaParse := some metaGit, sourceHasDotGit := true,
    rsyncProbe := okRes, showRef := okRes, checkout := okRes,
    gitDiff := okRes, gitApply := okRes, gitLsFiles := okRes,
    rsyncMirror := okRes, rsyncUntracked := okRes, tmpDir := "/tmp/cowl-x" }

/-- Same environment but the registry entry has no recorded base. -/
def envNoBase : Env := { envBase with metaParse := some metaNoBase }

/-- Environment whose `git ls-files` reports an untracked `.cowl.json`
next to a regular new file. -/
def envUntracked : Env :=
  { envBase with gitLsFiles := ⟨0, "new.txt\x00.cowl.json\x00", "", none, none⟩ }

/-- Clone environment where the CoW attempt fails cleanly and the plain
fallback fails after creating part of the destination. -/
def cowEnvFallbackFail : CowEnv :=
  { darwin := false, destExistsInitially := false, parentExists := true,
    cowResult := ⟨1, "", "cow unsupported", none, none⟩,
    destPartialAfterCow := false,
    fallbackResult := ⟨1, "", "disk full", none, none⟩,
    destPartialAfterFallback := true }

/-- Clone environment where the CoW attempt fails (leaving a partial
destination) and the plain fallback succeeds. -/
def cowEnvFallbackOk : CowEnv :=
  { cowEnvFallbackFail with
    destPartialAfterCow := true,
    fallbackResult := ⟨0, "", "", none, none⟩,
    destPartialAfterFallback := false }

/-- The §8 example: variation overwrote `keep.txt`, deleted `gone.txt`,
added `new.txt`. -/
def exVariation : String → Option String :=
  fun f => if f = "keep.txt" then some "updated"
           else if f = "new.txt" then some "new" else none

/-- The §8 example source: `keep.txt` and `gone.txt`. -/
def exSource : String → Option String :=
  fun f => if f = "keep.txt" then some "keep"
           else if f = "gone.txt" then some "gone" else none

/-- Actions that a dry run may perform: read-only or check-only external
commands (`git diff`, `git ls-files`, `git apply --check`, version probes,
`rsync --dry-run`) and diagnostics.  Everything else mutates state. -/
def dryRunSafe : Action → Bool
  | .runCmd "git" args =>
      decide ("diff" ∈ args) || decide ("ls-files" ∈ args) || decide ("--check" ∈ args)
  | .runCmd "rsync" args =>
      decide (args = ["--version"]) || decide ("--dry-run" ∈ args)
  | .warn _ => true
  | _ => false

/-- Actions other than removing a directory tree or a registry entry. -/
def nonDestructive : Action → Bool
  | .rmTree _ => false
  | .deleteMetaFile _ => false
  | _ => true

/-! ### Trace lemmas -/

@[simp] lemma resTrace_error (m : String) (tr : List Action) :
    resTrace (.error (m, tr)) = tr := rfl

@[simp] lemma resTrace_error' (e : String × List Action) :
    resTrace (.error e) = e.2 := rfl

@[simp] lemma resTrace_ok (tr : List Action) : resTrace (.ok tr) = tr := rfl

lemma ensureRsync_resTrace (env : Env) (tr : List Action) :
    resTrace (ensureRsync env tr) = tr ++ [Action.runCmd "rsync" ["--version"]] := by
  unfold ensureRsync
  dsimp only
  by_cases hc : commandExists env.rsyncProbe = true
  · rw [if_pos hc]
    simp
  · rw [if_neg hc]
    simp

lemma ensureBranch_resTrace (p b : String) (env : Env) (tr : List Action) :
    ∃ ck, resTrace (ensureBranch p b env tr)
        = tr ++ [Action.runCmd "git" ["-C", p, "show-ref", "--verify", "refs/heads/" ++ b],
                 Action.runCmd "git" ck]
      ∧ ck.get? 2 = some "checkout" := by
  unfold ensureBranch
  dsimp only
  by_cases h : env.showRef.status = 0
  · rw [if_pos h]
    by_cases h2 : env.checkout.status ≠ 0
    · rw [if_pos h2]
      exact ⟨["-C", p, "checkout", b], by simp, rfl⟩
    · rw [if_neg h2]
      exact ⟨["-C", p, "checkout", b], by simp, rfl⟩
  · rw [if_neg h]
    by_cases h2 : env.checkout.status ≠ 0
    · rw [if_pos h2]
      exact ⟨["-C", p, "checkout", "-b", b], by simp, rfl⟩
    · rw [if_neg h2]
      exact ⟨["-C", p, "checkout", "-b", b], by simp, rfl⟩

lemma copyUntracked_append (v s : String) (files : List String) (env : Env) (tr : List Action) :
    ∃ l, resTrace (copyUntrackedWithRsync v s files env tr) = tr ++ l ∧
      ∀ a ∈ l, a = Action.runCmd "rsync" ["--version"]
        ∨ a = Action.writeFileList (env.tmpDir ++ "/files")
              (String.intercalate "\x00" files ++ "\x00")
        ∨ a = Action.runCmd "rsync"
              ["-a", "--from0", "--files-from=" ++ (env.tmpDir ++ "/files"),
               v ++ "/", s ++ "/"] := by
  unfold copyUntrackedWithRsync ensureRsync
  dsimp only
  by_cases hc : commandExists env.rsyncProbe = true
  · rw [if_pos hc]
    dsimp only
    by_cases hf : files = []
    · rw [if_pos hf]
      exact ⟨[Action.runCmd "rsync" ["--version"]], by simp, by simp⟩
    · rw [if_neg hf, if_neg hf]
      by_cases hr : env.rsyncUntracked.status ≠ 0
      · rw [if_pos hr]
        refine ⟨[Action.runCmd "rsync" ["--version"],
          Action.writeFileList (env.tmpDir ++ "/files")
            (String.intercalate "\x00" files ++ "\x00"),
          Action.runCmd "rsync"
            ["-a", "--from0", "--files-from=" ++ (env.tmpDir ++ "/files"),
             v ++ "/", s ++ "/"]], by simp, ?_⟩
        simp
      · rw [if_neg hr]
        refine ⟨[Action.runCmd "rsync" ["--version"],
          Action.writeFileList (env.tmpDir ++ "/files")
            (String.intercalate "\x00" files ++ "\x00"),
          Action.runCmd "rsync"
            ["-a", "--from0", "--files-from=" ++ (env.tmpDir ++ "/files"),
             v ++ "/", s ++ "/"]], by simp, ?_⟩
        simp
  · rw [if_neg hc]
    dsimp only
    exact ⟨[Action.runCmd "rsync" ["--version"]], by simp, by simp⟩

lemma copyUntracked_run (v s : String) (files : List String) (env : Env) (tr : List Action)
    (hf : ¬ files = []) (hc : commandExists env.rsyncProbe = true) :
    resTrace (copyUntrackedWithRsync v s files env tr)
      = tr ++ [Action.runCmd "rsync" ["--version"],
               Action.writeFileList (env.tmpDir ++ "/files")
                 (String.intercalate "\x00" files ++ "\x00"),
               Action.runCmd "rsync"
                 ["-a", "--from0", "--files-from=" ++ (env.tmpDir ++ "/files"),
                  v ++ "/", s ++ "/"]] := by
  unfold copyUntrackedWithRsync ensureRsync
  dsimp only
  rw [if_pos hc]
  dsimp only
  rw [if_neg hf, if_neg hf]
  by_cases hr : env.rsyncUntracked.status ≠ 0
  · rw [if_pos hr]
    simp
  · rw [if_neg hr]
    simp

lemma mergeWithRsync_resTrace (s v : String) (dr del : Bool) (env : Env) (tr : List Action) :
    resTrace (mergeWithRsync s v dr del env tr) = tr ++ [Action.runCmd "rsync" ["--version"]]
    ∨ resTrace (mergeWithRsync s v dr del env tr)
        = tr ++ [Action.runCmd "rsync" ["--version"],
                 Action.runCmd "rsync" (mergeWithRsyncArgs s v dr del)] := by
  unfold mergeWithRsync ensureRsync
  dsimp only
  by_cases hc : commandExists env.rsyncProbe = true
  · rw [if_pos hc]
    dsimp only
    right
    by_cases hr : env.rsyncMirror.status ≠ 0
    · rw [if_pos hr]
      simp
    · rw [if_neg hr]
      simp
  · rw [if_neg hc]
    dsimp only
    left
    simp

lemma mergeWithRsync_run (s v : String) (dr del : Bool) (env : Env) (tr : List Action)
    (hc : commandExists env.rsyncProbe = true) :
    resTrace (mergeWithRsync s v dr del env tr)
      = tr ++ [Action.runCmd "rsync" ["--version"],
               Action.runCmd "rsync" (mergeWithRsyncArgs s v dr del)] := by
  unfold mergeWithRsync ensureRsync
  dsimp only
  rw [if_pos hc]
  dsimp only
  by_cases hr : env.rsyncMirror.status ≠ 0
  · rw [if_pos hr]
    simp
  · rw [if_neg hr]
    simp

/-- Membership form of the untracked-copy trace: anything in the result
trace was already in the accumulator or is one of the three actions. -/
lemma mem_copyUntracked {v s : String} {files : List String} {env : Env}
    {tr : List Action} {a : Action}
    (ha : a ∈ resTrace (copyUntrackedWithRsync v s files env tr)) :
    a ∈ tr ∨ a = Action.runCmd "rsync" ["--version"]
      ∨ a = Action.writeFileList (env.tmpDir ++ "/files")
            (String.intercalate "\x00" files ++ "\x00")
      ∨ a = Action.runCmd "rsync"
            ["-a", "--from0", "--files-from=" ++ (env.tmpDir ++ "/files"),
             v ++ "/", s ++ "/"] := by
  obtain ⟨l, hl, hmem⟩ := copyUntracked_append v s files env tr
  rw [hl] at ha
  rcases List.mem_append.1 ha with h | h
  · exact Or.inl h
  · exact Or.inr (hmem a h)

lemma mem_copyUntracked_mono {v s : String} {files : List String} {env : Env}
    {tr : List Action} {a : Action} (ha : a ∈ tr) :
    a ∈ resTrace (copyUntrackedWithRsync v s files env tr) := by
  obtain ⟨l, hl, _⟩ := copyUntracked_append v s files env tr
  rw [hl]
  exact List.mem_append_left _ ha

/-- Anything the diff / apply / untracked sequence adds to the trace is
one of its six fixed actions. -/
lemma mem_mergeWithGitCore {s v b : String} {dr : Bool} {env : Env}
    {tr : List Action} {a : Action}
    (ha : a ∈ resTrace (mergeWithGitCore s v b dr env tr)) :
    a ∈ tr ∨ a = Action.runCmd "git" ["-C", v, "diff", "--binary", b]
      ∨ a = Action.runCmd "git" (["-C", s, "apply", "--3way"] ++ (if dr then ["--check"] else []))
      ∨ a = Action.runCmd "git" ["-C", v, "ls-files", "--others", "--exclude-standard", "-z"]
      ∨ a = Action.runCmd "rsync" ["--version"]
      ∨ a = Action.writeFileList (env.tmpDir ++ "/files")
            (String.intercalate "\x00" (untrackedFiles env) ++ "\x00")
      ∨ a = Action.runCmd "rsync"
            ["-a", "--from0", "--files-from=" ++ (env.tmpDir ++ "/files"),
             v ++ "/", s ++ "/"] := by
  unfold mergeWithGitCore at ha
  try dsimp only at ha
  by_cases h1 : env.gitDiff.status ≠ 0
  · rw [if_pos h1] at ha
    simp only [resTrace_error, List.mem_append, List.mem_singleton] at ha
    tauto
  · rw [if_neg h1] at ha
    by_cases h2 : (jsTrim env.gitDiff.stdout).length > 0
    · rw [if_pos h2] at ha
      try dsimp only at ha
      by_cases h3 : env.gitApply.status ≠ 0
      · rw [if_pos h3] at ha
        simp only [resTrace_error, List.mem_append, List.mem_singleton] at ha
        tauto
      · rw [if_neg h3] at ha
        try dsimp only at ha
        by_cases h4 : env.gitLsFiles.status ≠ 0
        · rw [if_pos h4] at ha
          simp only [resTrace_error, List.mem_append, List.mem_singleton] at ha
          tauto
        · rw [if_neg h4] at ha
          by_cases hdr : dr = true
          · simp only [hdr, Bool.not_true] at ha
            rw [if_neg (by simp : ¬ (false = true))] at ha
            simp only [resTrace_ok, List.mem_append, List.mem_singleton] at ha
            simp only [hdr]
            tauto
          · have hdr' : dr = false := by
              cases dr
              · rfl
              · exact absurd rfl hdr
            simp only [hdr', Bool.not_false] at ha
            rw [if_pos (by trivial)] at ha
            rcases mem_copyUntracked ha with h | h | h | h
            · simp only [List.mem_append, List.mem_singleton] at h
              simp only [hdr']
              tauto
            · tauto
            · tauto
            · tauto
    · rw [if_neg h2] at ha
      try dsimp only at ha
      by_cases h4 : env.gitLsFiles.status ≠ 0
      · rw [if_pos h4] at ha
        simp only [resTrace_error, List.mem_append, List.mem_singleton] at ha
        tauto
      · rw [if_neg h4] at ha
        by_cases hdr : dr = true
        · simp only [hdr, Bool.not_true] at ha
          rw [if_neg (by simp : ¬ (false = true))] at ha
          simp only [resTrace_ok, List.mem_append, List.mem_singleton] at ha
          tauto
        · have hdr' : dr = false := by
            cases dr
            · rfl
            · exact absurd rfl hdr
          simp only [hdr', Bool.not_false] at ha
          rw [if_pos (by trivial)] at ha
          rcases mem_copyUntracked ha with h | h | h | h
          · simp only [List.mem_append, List.mem_singleton] at h
            tauto
          · tauto
          · tauto
          · tauto

lemma mem_mergeWithGitCore_mono {s v b : String} {dr : Bool} {env : Env}
    {tr : List Action} {a : Action} (ha : a ∈ tr) :
    a ∈ resTrace (mergeWithGitCore s v b dr env tr) := by
  unfold mergeWithGitCore
  try dsimp only
  by_cases h1 : env.gitDiff.status ≠ 0
  · rw [if_pos h1]
    simp [ha]
  · rw [if_neg h1]
    by_cases h2 : (jsTrim env.gitDiff.stdout).length > 0
    · rw [if_pos h2]
      try dsimp only
      by_cases h3 : env.gitApply.status ≠ 0
      · rw [if_pos h3]
        simp [ha]
      · rw [if_neg h3]
        try dsimp only
        by_cases h4 : env.gitLsFiles.status ≠ 0
        · rw [if_pos h4]
          simp [ha]
        · rw [if_neg h4]
          by_cases hdr : dr = true
          · simp only [hdr, Bool.not_true]
            rw [if_neg (by simp : ¬ (false = true))]
            simp [ha]
          · have hdr' : dr = false := by
              cases dr
              · rfl
              · exact absurd rfl hdr
            simp only [hdr', Bool.not_false]
            rw [if_pos (by trivial)]
            exact mem_copyUntracked_mono (by simp [ha])
    · rw [if_neg h2]
      try dsimp only
      by_cases h4 : env.gitLsFiles.status ≠ 0
      · rw [if_pos h4]
        simp [ha]
      · rw [if_neg h4]
        by_cases hdr : dr = true
        · simp only [hdr, Bool.not_true]
          rw [if_neg (by simp : ¬ (false = true))]
          simp [ha]
        · have hdr' : dr = false := by
            cases dr
            · rfl
            · exact absurd rfl hdr
          simp only [hdr', Bool.not_false]
          rw [if_pos (by trivial)]
          exact mem_copyUntracked_mono (by simp [ha])


/-- Everything `mergeWithGit` adds to the trace: the branch-switch
commands, the diff / apply / ls-files commands, or the untracked-copy
actions. -/
lemma mem_mergeWithGit {s v b : String} {dr : Bool} {bn : Option String}
    {env : Env} {tr : List Action} {a : Action}
    (ha : a ∈ resTrace (mergeWithGit s v b dr bn env tr)) :
    a ∈ tr
      ∨ a = Action.runCmd "git"
            ["-C", s, "show-ref", "--verify", "refs/heads/" ++ bn.getD ""]
      ∨ (∃ ck, a = Action.runCmd "git" ck ∧ ck.get? 2 = some "checkout")
      ∨ a = Action.runCmd "git" ["-C", v, "diff", "--binary", b]
      ∨ a = Action.runCmd "git" (["-C", s, "apply", "--3way"] ++ (if dr then ["--check"] else []))
      ∨ a = Action.runCmd "git" ["-C", v, "ls-files", "--others", "--exclude-standard", "-z"]
      ∨ a = Action.runCmd "rsync" ["--version"]
      ∨ a = Action.writeFileList (env.tmpDir ++ "/files")
            (String.intercalate "\x00" (untrackedFiles env) ++ "\x00")
      ∨ a = Action.runCmd "rsync"
            ["-a", "--from0", "--files-from=" ++ (env.tmpDir ++ "/files"),
             v ++ "/", s ++ "/"] := by
  unfold mergeWithGit at ha
  try dsimp only at ha
  by_cases hb : (branchRequested bn && !dr) = true
  · rw [if_pos hb] at ha
    obtain ⟨ck, htr, hck⟩ := ensureBranch_resTrace s (bn.getD "") env tr
    rcases hEB : ensureBranch s (bn.getD "") env tr with e | t <;> rw [hEB] at ha htr <;>
      try dsimp only at ha
    · simp only [resTrace_error'] at ha htr
      rw [htr] at ha
      simp only [List.mem_append, List.mem_cons, List.not_mem_nil, or_false] at ha
      rcases ha with h | h | h
      · exact Or.inl h
      · subst h
        tauto
      · subst h
        exact Or.inr (Or.inr (Or.inl ⟨ck, rfl, hck⟩))
    · simp only [resTrace_ok] at htr
      rcases mem_mergeWithGitCore ha with h | h
      · rw [htr] at h
        simp only [List.mem_append, List.mem_cons, List.not_mem_nil, or_false] at h
        rcases h with h | h | h
        · exact Or.inl h
        · subst h
          tauto
        · subst h
          exact Or.inr (Or.inr (Or.inl ⟨ck, rfl, hck⟩))
      · tauto
  · rw [if_neg hb] at ha
    try dsimp only at ha
    rcases mem_mergeWithGitCore ha with h | h <;> tauto

/-- In dry-run mode `mergeWithGit` only adds the diff command, the
check-only apply, and the ls-files enumeration: no branch switch, no
untracked-file copy. -/
lemma mem_mergeWithGit_dry {s v b : String} {bn : Option String}
    {env : Env} {tr : List Action} {a : Action}
    (ha : a ∈ resTrace (mergeWithGit s v b true bn env tr)) :
    a ∈ tr ∨ a = Action.runCmd "git" ["-C", v, "diff", "--binary", b]
      ∨ a = Action.runCmd "git" ["-C", s, "apply", "--3way", "--check"]
      ∨ a = Action.runCmd "git" ["-C", v, "ls-files", "--others", "--exclude-standard", "-z"] := by
  unfold mergeWithGit at ha
  try dsimp only at ha
  rw [if_neg (by simp : ¬ (branchRequested bn && !true) = true)] at ha
  try dsimp only at ha
  unfold mergeWithGitCore at ha
  try dsimp only at ha
  by_cases h1 : env.gitDiff.status ≠ 0
  · rw [if_pos h1] at ha
    simp only [resTrace_error, List.mem_append, List.mem_singleton] at ha
    tauto
  · rw [if_neg h1] at ha
    by_cases h2 : (jsTrim env.gitDiff.stdout).length > 0
    · rw [if_pos h2] at ha
      try dsimp only at ha
      rw [if_pos (by trivial : (true : Bool) = true)] at ha
      by_cases h3 : env.gitApply.status ≠ 0
      · rw [if_pos h3] at ha
        simp only [resTrace_error, List.mem_append, List.mem_singleton] at ha
        tauto
      · rw [if_neg h3] at ha
        try dsimp only at ha
        by_cases h4 : env.gitLsFiles.status ≠ 0
        · rw [if_pos h4] at ha
          simp only [resTrace_error, List.mem_append, List.mem_singleton] at ha
          tauto
        · rw [if_neg h4] at ha
          rw [if_neg (by simp : ¬ ((!true : Bool) = true))] at ha
          simp only [resTrace_ok, List.mem_append, List.mem_singleton] at ha
          tauto
    · rw [if_neg h2] at ha
      try dsimp only at ha
      by_cases h4 : env.gitLsFiles.status ≠ 0
      · rw [if_pos h4] at ha
        simp only [resTrace_error, List.mem_append, List.mem_singleton] at ha
        tauto
      · rw [if_neg h4] at ha
        rw [if_neg (by simp : ¬ ((!true : Bool) = true))] at ha
        simp only [resTrace_ok, List.mem_append, List.mem_singleton] at ha
        tauto

/-- When a nonempty branch name is passed outside dry-run, the
`git show-ref` probe for that branch is in the resulting trace (whether or
not the checkout, diff, or later steps succeed). -/
lemma mergeWithGit_showRef (s v b br : String) (hbr : br ≠ "")
    (env : Env) (tr : List Action) :
    Action.runCmd "git" ["-C", s, "show-ref", "--verify", "refs/heads/" ++ br]
      ∈ resTrace (mergeWithGit s v b false (some br) env tr) := by
  unfold mergeWithGit
  try dsimp only
  rw [if_pos (by simp [branchRequested, hbr] : (branchRequested (some br) && !false) = true)]
  obtain ⟨ck, htr, hck⟩ := ensureBranch_resTrace s ((some br).getD "") env tr
  rcases hEB : ensureBranch s ((some br).getD "") env tr with e | t <;> rw [hEB] at htr <;>
    try dsimp only
  · simp only [resTrace_error'] at htr ⊢
    rw [htr]
    simp [Option.getD]
  · simp only [resTrace_ok] at htr
    apply mem_mergeWithGitCore_mono
    rw [htr]
    simp [Option.getD]



lemma mem_mergeWithRsync {s v : String} {dr del : Bool} {env : Env}
    {tr : List Action} {a : Action}
    (ha : a ∈ resTrace (mergeWithRsync s v dr del env tr)) :
    a ∈ tr ∨ a = Action.runCmd "rsync" ["--version"]
      ∨ a = Action.runCmd "rsync" (mergeWithRsyncArgs s v dr del) := by
  rcases mergeWithRsync_resTrace s v dr del env tr with h | h <;> rw [h] at ha <;>
    simp only [List.mem_append, List.mem_cons, List.not_mem_nil, or_false] at ha <;> tauto

lemma cleanupPhase_dry (k : Bool) (vp : String) (env : Env) (r : MergeRes) :
    cleanupPhase true k vp env r = r := by
  unfold cleanupPhase
  cases r with
  | error e => rfl
  | ok tr => simp

lemma cleanupPhase_error (d k : Bool) (vp : String) (env : Env) (e : String × List Action) :
    cleanupPhase d k vp env (.error e) = .error e := rfl

lemma cleanupPhase_ok_run (vp : String) (env : Env) (tr : List Action) :
    cleanupPhase false false vp env (.ok tr)
      = .ok (tr ++ [Action.rmTree vp]
               ++ (if env.metaFileExists then [Action.deleteMetaFile vp] else [])) := by
  unfold cleanupPhase
  simp

lemma mem_cleanupPhase {d k : Bool} {vp : String} {env : Env} {r : MergeRes} {a : Action}
    (ha : a ∈ resTrace (cleanupPhase d k vp env r)) :
    a ∈ resTrace r ∨ a = Action.rmTree vp ∨ a = Action.deleteMetaFile vp := by
  unfold cleanupPhase at ha
  cases r with
  | error e => exact Or.inl ha
  | ok tr =>
    try dsimp only at ha
    by_cases hc : (!d && !k) = true
    · rw [if_pos hc] at ha
      by_cases hm : env.metaFileExists = true
      · rw [if_pos hm] at ha
        simp only [resTrace_ok, List.mem_append, List.mem_cons, List.not_mem_nil, or_false] at ha ⊢
        tauto
      · rw [if_neg hm] at ha
        simp only [resTrace_ok, List.mem_append, List.mem_cons, List.not_mem_nil, or_false] at ha ⊢
        tauto
    · rw [if_neg hc] at ha
      exact Or.inl ha

lemma mem_cleanupPhase_mono {d k : Bool} {vp : String} {env : Env} {r : MergeRes} {a : Action}
    (ha : a ∈ resTrace r) :
    a ∈ resTrace (cleanupPhase d k vp env r) := by
  unfold cleanupPhase
  cases r with
  | error e => exact ha
  | ok tr =>
    try dsimp only
    by_cases hc : (!d && !k) = true
    · rw [if_pos hc]
      simp only [resTrace_ok] at ha ⊢
      simp [ha]
    · rw [if_neg hc]
      exact ha

lemma cmdMerge_dispatch (flags : List String) (branchOpt : Option String)
    (ps : List String) (sp : String) (env : Env) (n : String)
    (hn : ps.head? = some n) (hne : n ≠ "") (hslug : slugify n ≠ "")
    (hex : env.variationExists = true)
    (hsm : sourceMatchOk (readMeta env) sp = true)
    (hbv : branchValueOk branchOpt = true) :
    cmdMerge flags branchOpt ps sp env =
      cleanupPhase (flags.contains "dry-run") (flags.contains "keep")
        (variationPathOf env sp ps) env
        (strategyDispatch flags branchOpt n (variationPathOf env sp ps) sp
          (readMeta env) env) := by
  unfold cmdMerge variationPathOf
  rw [hn]
  simp [hne, hslug, hex, hsm, hbv, Option.getD]

lemma cmdMerge_shape (flags : List String) (branchOpt : Option String)
    (ps : List String) (sp : String) (env : Env) :
    (∃ msg, cmdMerge flags branchOpt ps sp env = .error (msg, [])) ∨
    cmdMerge flags branchOpt ps sp env =
      cleanupPhase (flags.contains "dry-run") (flags.contains "keep")
        (variationPathOf env sp ps) env
        (strategyDispatch flags branchOpt ((ps.head?).getD "")
          (variationPathOf env sp ps) sp (readMeta env) env) := by
  simp only [cmdMerge, variationPathOf]
  split_ifs <;> first
    | exact Or.inl ⟨_, rfl⟩
    | exact Or.inr rfl



/-! ### C1 -/

/-- C1, counterexample.  The claim says that whenever the git strategy is
not selected, `mergeWithRsync` is invoked.  Here the variation has no
recorded base revision and the caller passed `--branch`: the merge fails
with the usage error and its trace is empty, so `mergeWithRsync` (whose
invocation always records at least the `rsync --version` probe) was never
invoked. -/
theorem merge_strategy_selection_counterexample :
    cmdMerge ["branch"] none ["demo"] "/work/proj" envNoBase
      = .error ("merge --branch requires a git repo root.", []) := by
  rfl

/-- C1, amended.  For a merge that passes the preliminary checks (name
present and sluggable, variation exists, recorded source matches, branch
value nonempty if given): when the recorded `gitBase` is truthy (present
and nonempty) and the source holds a `.git` entry, `mergeWithGit` is
invoked with exactly that base revision; otherwise, if branch
creation/switching was requested the merge fails at once, and if not,
`mergeWithRsync` is invoked. -/
theorem merge_strategy_selection_amended (flags : List String)
    (branchOpt : Option String) (ps : List String) (sp : String) (env : Env)
    (n : String)
    (hn : ps.head? = some n) (hne : n ≠ "") (hslug : slugify n ≠ "")
    (hex : env.variationExists = true)
    (hsm : sourceMatchOk (readMeta env) sp = true)
    (hbv : branchValueOk branchOpt = true) :
    (∀ g, (readMeta env).bind Meta.gitBase = some g → g ≠ "" →
        env.sourceHasDotGit = true →
        cmdMerge flags branchOpt ps sp env =
          cleanupPhase (flags.contains "dry-run") (flags.contains "keep")
            (variationPathOf env sp ps) env
            (mergeWithGit sp (variationPathOf env sp ps) g
              (flags.contains "dry-run")
              (branchNameOf flags branchOpt (readMeta env) n) env
              (warnActs flags branchOpt)))
    ∧ (selectsGit (readMeta env) env.sourceHasDotGit = false →
        wantsBranchOf flags branchOpt = true →
        cmdMerge flags branchOpt ps sp env
          = .error ("merge --branch requires a git repo root.", []))
    ∧ (selectsGit (readMeta env) env.sourceHasDotGit = false →
        wantsBranchOf flags branchOpt = false →
        cmdMerge flags branchOpt ps sp env =
          cleanupPhase (flags.contains "dry-run") (flags.contains "keep")
            (variationPathOf env sp ps) env
            (mergeWithRsync sp (variationPathOf env sp ps)
              (flags.contains "dry-run") (flags.contains "delete") env [])) := by
  refine ⟨?_, ?_, ?_⟩
  · intro g hg hgne hdg
    have hsel : selectsGit (readMeta env) env.sourceHasDotGit = true := by
      simp [selectsGit, hg, hgne, hdg]
    rw [cmdMerge_dispatch flags branchOpt ps sp env n hn hne hslug hex hsm hbv]
    unfold strategyDispatch
    rw [if_pos hsel]
    simp [hg]
  · intro hsel hwb
    rw [cmdMerge_dispatch flags branchOpt ps sp env n hn hne hslug hex hsm hbv]
    unfold strategyDispatch
    rw [if_neg (by simp [hsel] : ¬ selectsGit (readMeta env) env.sourceHasDotGit = true)]
    rw [if_pos hwb]
    rfl
  · intro hsel hwb
    rw [cmdMerge_dispatch flags branchOpt ps sp env n hn hne hslug hex hsm hbv]
    unfold strategyDispatch
    rw [if_neg (by simp [hsel] : ¬ selectsGit (readMeta env) env.sourceHasDotGit = true)]
    rw [if_neg (by simp [hwb] : ¬ wantsBranchOf flags branchOpt = true)]

/-- Witness for the amended C1 theorem at concrete inputs: the git path on
`envBase` and the mirror path on `envNoBase`. -/
theorem merge_strategy_selection_amended_witness :
    (cmdMerge [] none ["demo"] "/work/proj" envBase =
      cleanupPhase false false (variationPathOf envBase "/work/proj" ["demo"]) envBase
        (mergeWithGit "/work/proj" (variationPathOf envBase "/work/proj" ["demo"]) "abc123"
          false (branchNameOf [] none (readMeta envBase) "demo") envBase
          (warnActs [] none)))
    ∧ (cmdMerge [] none ["demo"] "/work/proj" envNoBase =
      cleanupPhase false false (variationPathOf envNoBase "/work/proj" ["demo"]) envNoBase
        (mergeWithRsync "/work/proj" (variationPathOf envNoBase "/work/proj" ["demo"])
          false false envNoBase [])) :=
  ⟨(merge_strategy_selection_amended [] none ["demo"] "/work/proj" envBase "demo"
      rfl (by decide) (by decide) rfl rfl rfl).1 "abc123" rfl (by decide) rfl,
   (merge_strategy_selection_amended [] none ["demo"] "/work/proj" envNoBase "demo"
      rfl (by decide) (by decide) rfl rfl rfl).2.2 rfl rfl⟩

/-! ### C2 -/

/-- C2.  Usage errors in merge are rejected before any mutation: a
whitespace-only `--branch` value fails immediately with an empty trace,
and a requested branch combined with the mirror strategy fails immediately
with an empty trace — in both cases no reconciler runs and nothing is
mutated. -/
theorem merge_usage_errors_reject_before_mutation (flags : List String)
    (branchOpt : Option String) (ps : List String) (sp : String) (env : Env)
    (n : String)
    (hn : ps.head? = some n) (hne : n ≠ "") (hslug : slugify n ≠ "")
    (hex : env.variationExists = true)
    (hsm : sourceMatchOk (readMeta env) sp = true) :
    (∀ s, branchOpt = some s → jsTrim s = "" →
        cmdMerge flags branchOpt ps sp env = .error ("Branch name cannot be empty.", []))
    ∧ (branchValueOk branchOpt = true →
        wantsBranchOf flags branchOpt = true →
        selectsGit (readMeta env) env.sourceHasDotGit = false →
        cmdMerge flags branchOpt ps sp env
          = .error ("merge --branch requires a git repo root.", [])) := by
  constructor
  · intro s hbo htrim
    have hbv : branchValueOk branchOpt = false := by
      simp [branchValueOk, hbo, htrim]
    unfold cmdMerge
    rw [hn]
    simp [hne, hslug, hex, hsm, hbv, Option.getD]
  · intro hbv hwb hsel
    exact (merge_strategy_selection_amended flags branchOpt ps sp env n
      hn hne hslug hex hsm hbv).2.1 hsel hwb

/-- Witness for C2: the empty `--branch` value and the branch-with-mirror
usage error, both on concrete environments, reject with an empty trace. -/
theorem merge_usage_errors_witness :
    (cmdMerge [] (some "   ") ["demo"] "/work/proj" envBase
      = .error ("Branch name cannot be empty.", []))
    ∧ (cmdMerge ["branch"] none ["demo"] "/work/proj" envNoBase
      = .error ("merge --branch requires a git repo root.", [])) :=
  ⟨(merge_usage_errors_reject_before_mutation [] (some "   ") ["demo"] "/work/proj"
      envBase "demo" rfl (by decide) (by decide) rfl rfl).1 "   " rfl (by decide),
   (merge_usage_errors_reject_before_mutation ["branch"] none ["demo"] "/work/proj"
      envNoBase "demo" rfl (by decide) (by decide) rfl rfl).2 rfl rfl rfl⟩

/-! ### C5 -/

/-- C5.  A merge of a variation whose registry entry records a (nonempty)
source path different from the caller's current resolved source path fails
with the precondition error and an empty trace: no reconciliation step
runs and nothing is mutated. -/
theorem merge_cross_source_rejected (flags : List String)
    (branchOpt : Option String) (ps : List String) (sp : String) (env : Env)
    (n : String) (m : Meta)
    (hn : ps.head? = some n) (hne : n ≠ "") (hslug : slugify n ≠ "")
    (hex : env.variationExists = true)
    (hmeta : readMeta env = some m)
    (hrec : m.sourcePath ≠ "") (hdiff : m.sourcePath ≠ sp) :
    cmdMerge flags branchOpt ps sp env
      = .error ("Variation was created from: " ++ m.sourcePath, []) := by
  have hsm : sourceMatchOk (some m) sp = false := by
    simp [sourceMatchOk, hrec, hdiff]
  unfold cmdMerge
  rw [hn]
  simp [hne, hslug, hex, hmeta, hsm, Option.getD]

/-- Witness for C5 on a concrete environment whose registry entry records
`/other/place` while the merge runs against `/work/proj`. -/
theorem merge_cross_source_rejected_witness :
    cmdMerge [] none ["demo"] "/work/proj"
        { envBase with metaParse := some { metaGit with sourcePath := "/other/place" } }
      = .error ("Variation was created from: " ++ "/other/place", []) :=
  merge_cross_source_rejected [] none ["demo"] "/work/proj"
    { envBase with metaParse := some { metaGit with sourcePath := "/other/place" } }
    "demo" { metaGit with sourcePath := "/other/place" }
    rfl (by decide) (by decide) rfl rfl (by decide) (by decide)



lemma mem_mergeWithGit_mono {s v b : String} {dr : Bool} {bn : Option String}
    {env : Env} {tr : List Action} {a : Action} (ha : a ∈ tr) :
    a ∈ resTrace (mergeWithGit s v b dr bn env tr) := by
  unfold mergeWithGit
  try dsimp only
  by_cases hb : (branchRequested bn && !dr) = true
  · rw [if_pos hb]
    obtain ⟨ck, htr, _⟩ := ensureBranch_resTrace s (bn.getD "") env tr
    rcases hEB : ensureBranch s (bn.getD "") env tr with e | t <;> rw [hEB] at htr <;>
      try dsimp only
    · simp only [resTrace_error'] at htr ⊢
      rw [htr]
      simp [ha]
    · simp only [resTrace_ok] at htr
      apply mem_mergeWithGitCore_mono
      rw [htr]
      simp [ha]
  · rw [if_neg hb]
    try dsimp only
    exact mem_mergeWithGitCore_mono ha

lemma mem_warnActs {flags : List String} {branchOpt : Option String} {a : Action}
    (ha : a ∈ warnActs flags branchOpt) :
    a = Action.warn "Skipping branch creation in dry-run mode." := by
  unfold warnActs at ha
  split at ha <;> simp_all

/-- Every action a strategy dispatch records is an external command, a
file-list write, or a diagnostic — never a tree or registry removal. -/
lemma strategyDispatch_nonDestructive {flags : List String}
    {branchOpt : Option String} {n vp sp : String} {meta : Option Meta}
    {env : Env} {a : Action}
    (ha : a ∈ resTrace (strategyDispatch flags branchOpt n vp sp meta env)) :
    nonDestructive a = true := by
  unfold strategyDispatch at ha
  by_cases hsel : selectsGit meta env.sourceHasDotGit = true
  · rw [if_pos hsel] at ha
    rcases mem_mergeWithGit ha with h | h | ⟨ck, h, _⟩ | h | h | h | h | h | h
    · rw [mem_warnActs h]
      rfl
    all_goals subst h; rfl
  · rw [if_neg hsel] at ha
    by_cases hwb : wantsBranchOf flags branchOpt = true
    · rw [if_pos hwb] at ha
      simp at ha
    · rw [if_neg hwb] at ha
      rcases mem_mergeWithRsync ha with h | h | h
      · simp at h
      all_goals subst h; rfl

lemma cleanupPhase_eq_error {d k : Bool} {vp : String} {env : Env}
    {r : MergeRes} {e : String × List Action}
    (h : cleanupPhase d k vp env r = .error e) : r = .error e := by
  cases r with
  | error e0 => exact h
  | ok tr =>
    unfold cleanupPhase at h
    try dsimp only at h
    split_ifs at h

lemma cleanupPhase_eq_ok {d k : Bool} {vp : String} {env : Env}
    {r : MergeRes} {tr : List Action}
    (h : cleanupPhase d k vp env r = .ok tr) :
    ∃ tr0, r = .ok tr0 ∧
      tr = tr0 ++ (if (!d && !k) = true then
        [Action.rmTree vp] ++ (if env.metaFileExists = true then [Action.deleteMetaFile vp] else [])
      else []) := by
  cases r with
  | error e0 =>
    rw [cleanupPhase_error] at h
    exact absurd h (by simp)
  | ok tr0 =>
    unfold cleanupPhase at h
    try dsimp only at h
    refine ⟨tr0, rfl, ?_⟩
    by_cases hc : (!d && !k) = true
    · rw [if_pos hc] at h
      rw [if_pos hc]
      injection h with h
      rw [← h]
      simp
    · rw [if_neg hc] at h
      rw [if_neg hc]
      injection h with h
      rw [← h]
      simp


/-! ### C3 -/

/-- C3.  With `dry-run` set, nothing is mutated: every traced action is
read-only or check-only (`dryRunSafe`), no `git checkout` command is ever
issued (branch creation is skipped), any `git apply` carries `--check`,
the untracked-file copy is skipped and cleanup does not run (all of which
`dryRunSafe` excludes); when the git strategy is selected and a branch was
requested, only the skip warning is emitted. -/
theorem merge_dry_run_mutates_nothing (flags : List String)
    (branchOpt : Option String) (ps : List String) (sp : String) (env : Env)
    (hdry : flags.contains "dry-run" = true) :
    (∀ a ∈ resTrace (cmdMerge flags branchOpt ps sp env), dryRunSafe a = true)
    ∧ (∀ args, Action.runCmd "git" args ∈ resTrace (cmdMerge flags branchOpt ps sp env) →
        args.get? 2 ≠ some "checkout")
    ∧ (∀ n, ps.head? = some n → n ≠ "" → slugify n ≠ "" →
        env.variationExists = true → sourceMatchOk (readMeta env) sp = true →
        branchValueOk branchOpt = true →
        selectsGit (readMeta env) env.sourceHasDotGit = true →
        wantsBranchOf flags branchOpt = true →
        Action.warn "Skipping branch creation in dry-run mode."
          ∈ resTrace (cmdMerge flags branchOpt ps sp env)) := by
  have key : ∀ a ∈ resTrace (cmdMerge flags branchOpt ps sp env),
      dryRunSafe a = true ∧ (∀ args, a = Action.runCmd "git" args → args.get? 2 ≠ some "checkout") := by
    rcases cmdMerge_shape flags branchOpt ps sp env with ⟨msg, hE⟩ | hEq
    · rw [hE]
      intro a ha
      simp at ha
    · rw [hEq, hdry, cleanupPhase_dry]
      intro a ha
      unfold strategyDispatch at ha
      by_cases hsel : selectsGit (readMeta env) env.sourceHasDotGit = true
      · rw [if_pos hsel, hdry] at ha
        rcases mem_mergeWithGit_dry ha with h | h | h | h
        · rw [mem_warnActs h]
          exact ⟨rfl, by intro args hargs; cases hargs⟩
        · subst h
          refine ⟨by simp [dryRunSafe], ?_⟩
          intro args hargs
          injection hargs with h1 h2
          subst h2
          simp
        · subst h
          refine ⟨by simp [dryRunSafe], ?_⟩
          intro args hargs
          injection hargs with h1 h2
          subst h2
          simp
        · subst h
          refine ⟨by simp [dryRunSafe], ?_⟩
          intro args hargs
          injection hargs with h1 h2
          subst h2
          simp
      · rw [if_neg hsel] at ha
        by_cases hwb : wantsBranchOf flags branchOpt = true
        · rw [if_pos hwb] at ha
          simp at ha
        · rw [if_neg hwb, hdry] at ha
          rcases mem_mergeWithRsync ha with h | h | h
          · simp at h
          · subst h
            refine ⟨by simp [dryRunSafe], ?_⟩
            intro args hargs
            injection hargs with h1 h2
            exact absurd h1 (by decide)
          · subst h
            refine ⟨by simp [dryRunSafe, mergeWithRsyncArgs], ?_⟩
            intro args hargs
            injection hargs with h1 h2
            exact absurd h1 (by decide)
  refine ⟨fun a ha => (key a ha).1, fun args hmem => (key _ hmem).2 args rfl, ?_⟩
  intro n hn hne hslug hex hsm hbv hsel hwb
  rw [cmdMerge_dispatch flags branchOpt ps sp env n hn hne hslug hex hsm hbv]
  apply mem_cleanupPhase_mono
  unfold strategyDispatch
  rw [if_pos hsel]
  apply mem_mergeWithGit_mono
  unfold warnActs
  rw [if_pos (by rw [hwb, hdry]; rfl)]
  simp

/-- Witness for C3: on a concrete git-strategy environment with
`--dry-run --branch`, the skip warning is in the trace. -/
theorem merge_dry_run_witness :
    Action.warn "Skipping branch creation in dry-run mode."
      ∈ resTrace (cmdMerge ["dry-run", "branch"] none ["demo"] "/work/proj" envBase) :=
  (merge_dry_run_mutates_nothing ["dry-run", "branch"] none ["demo"] "/work/proj"
    envBase rfl).2.2 "demo" rfl (by decide) (by decide) rfl rfl rfl rfl rfl

/-! ### C9 -/

/-- C9.  Cleanup (variation-tree removal and registry-entry removal) runs
iff the reconciliation succeeded, `dry-run` is off and `keep` is off: a
failed merge's trace contains no removal at all; a successful merge's
trace contains the removal exactly when neither flag is set. -/
theorem cleanup_iff_success_not_dry_not_keep (flags : List String)
    (branchOpt : Option String) (ps : List String) (sp : String) (env : Env) :
    (∀ msg tr, cmdMerge flags branchOpt ps sp env = .error (msg, tr) →
        ∀ p, Action.rmTree p ∉ tr ∧ Action.deleteMetaFile p ∉ tr)
    ∧ (∀ tr, cmdMerge flags branchOpt ps sp env = .ok tr →
        (flags.contains "dry-run" = false → flags.contains "keep" = false →
            Action.rmTree (variationPathOf env sp ps) ∈ tr)
        ∧ (flags.contains "dry-run" = true ∨ flags.contains "keep" = true →
            ∀ p, Action.rmTree p ∉ tr ∧ Action.deleteMetaFile p ∉ tr)) := by
  constructor
  · intro msg tr hE p
    rcases cmdMerge_shape flags branchOpt ps sp env with ⟨msg0, hE0⟩ | hEq
    · have h := congrArg resTrace (hE0.symm.trans hE)
      simp only [resTrace_error] at h
      rw [← h]
      simp
    · rw [hEq] at hE
      have hr := cleanupPhase_eq_error hE
      have h := congrArg resTrace hr
      simp only [resTrace_error] at h
      constructor
      · intro hin
        have := strategyDispatch_nonDestructive (a := Action.rmTree p) (by rw [h]; exact hin)
        simp [nonDestructive] at this
      · intro hin
        have := strategyDispatch_nonDestructive (a := Action.deleteMetaFile p) (by rw [h]; exact hin)
        simp [nonDestructive] at this
  · intro tr hOk
    rcases cmdMerge_shape flags branchOpt ps sp env with ⟨msg0, hE0⟩ | hEq
    · rw [hE0] at hOk
      exact absurd hOk (by simp)
    · rw [hEq] at hOk
      obtain ⟨tr0, hr, htr⟩ := cleanupPhase_eq_ok hOk
      constructor
      · intro hd hk
        rw [htr]
        rw [if_pos (by rw [hd, hk]; rfl)]
        simp
      · intro hdk p
        have hcond : (!(flags.contains "dry-run") && !(flags.contains "keep")) = false := by
          rcases hdk with h | h <;> rw [h] <;> simp
        rw [hcond] at htr
        simp only [if_neg (by simp : ¬ (false = true)), List.append_nil] at htr
        subst htr
        have h := congrArg resTrace hr
        simp only [resTrace_ok] at h
        constructor
        · intro hin
          have := strategyDispatch_nonDestructive (a := Action.rmTree p) (by rw [h]; exact hin)
          simp [nonDestructive] at this
        · intro hin
          have := strategyDispatch_nonDestructive (a := Action.deleteMetaFile p) (by rw [h]; exact hin)
          simp [nonDestructive] at this

/-- Witness for C9: on a successful mirror merge the variation removal is
in the trace; with `--keep` it is not. -/
theorem cleanup_iff_witness :
    (Action.rmTree (variationPathOf envNoBase "/work/proj" ["demo"])
        ∈ resTrace (cmdMerge [] none ["demo"] "/work/proj" envNoBase))
    ∧ (Action.rmTree (variationPathOf envNoBase "/work/proj" ["demo"])
        ∉ resTrace (cmdMerge ["keep"] none ["demo"] "/work/proj" envNoBase)) :=
  ⟨((cleanup_iff_success_not_dry_not_keep [] none ["demo"] "/work/proj" envNoBase).2
      (resTrace (cmdMerge [] none ["demo"] "/work/proj" envNoBase)) rfl).1 rfl rfl,
   (((cleanup_iff_success_not_dry_not_keep ["keep"] none ["demo"] "/work/proj" envNoBase).2
      (resTrace (cmdMerge ["keep"] none ["demo"] "/work/proj" envNoBase)) rfl).2
      (Or.inr rfl) (variationPathOf envNoBase "/work/proj" ["demo"])).1⟩



/-! ### Path and branch-name helper lemmas -/

/-- A string built by appending `"/"` never equals a string whose last
character is not `'/'` (such as an rsync option flag). -/
lemma append_slash_ne (x y : String) (hy : y.data.getLast? ≠ some '/') :
    x ++ "/" ≠ y := by
  intro h
  apply hy
  rw [← h, String.data_append]
  exact List.getLast?_concat _

/-- The default branch namespace `cowl/…` is never the empty string. -/
lemma cowl_branch_ne_empty (x : String) : "cowl/" ++ x ≠ "" := by
  intro hc
  have h2 := congrArg String.length hc
  rw [String.length_append] at h2
  have h5 : ("cowl/" : String).length = 5 := rfl
  have h0 : ("" : String).length = 0 := rfl
  rw [h5, h0] at h2
  omega

/-- Whenever `cmdMerge` computes a branch name (branch-value check having
passed), that name is nonempty. -/
lemma branchNameOf_ne_empty (flags : List String) (branchOpt : Option String)
    (meta : Option Meta) (n br : String)
    (hbv : branchValueOk branchOpt = true)
    (h : branchNameOf flags branchOpt meta n = some br) : br ≠ "" := by
  unfold branchNameOf at h
  by_cases hwb : wantsBranchOf flags branchOpt = true
  · rw [if_pos hwb] at h
    injection h with h
    cases branchOpt with
    | none =>
      simp only [Option.map_none'] at h
      rw [← h]
      exact cowl_branch_ne_empty _
    | some s =>
      simp only [branchValueOk, ne_eq, decide_not] at hbv
      simp only [Option.map_some'] at h
      rw [← h]
      simpa using hbv
  · rw [if_neg hwb] at h
    cases h

/-! ### C4 -/

/-- C4, counterexample.  The claim says an explicit `--branch` value is
targeted *exactly*; the code trims it.  With the explicit value
`"  feature  "` the computed target — and the branch the repository is
asked to check out — is `"feature"`, not the given value. -/
theorem branch_target_counterexample :
    branchNameOf [] (some "  feature  ") (readMeta envBase) "demo" = some "feature"
    ∧ "feature" ≠ "  feature  "
    ∧ Action.runCmd "git" ["-C", "/work/proj", "checkout", "feature"]
        ∈ resTrace (cmdMerge [] (some "  feature  ") ["demo"] "/work/proj" envBase) := by
  refine ⟨rfl, by decide, by decide⟩

/-- C4, amended.  Branch targeting is deterministic: with `--branch` and
no explicit name the target is the fixed `cowl/` namespace plus the
recorded variation name (the slugified CLI name if no record exists);
with an explicit value the target is exactly the whitespace-trimmed
value.  On the git path outside dry-run, the repository is asked about
precisely that branch. -/
theorem branch_target_deterministic_amended (flags : List String)
    (branchOpt : Option String) (ps : List String) (sp : String) (env : Env)
    (n : String)
    (hn : ps.head? = some n) (hne : n ≠ "") (hslug : slugify n ≠ "")
    (hex : env.variationExists = true)
    (hsm : sourceMatchOk (readMeta env) sp = true)
    (hbv : branchValueOk branchOpt = true)
    (hwb : wantsBranchOf flags branchOpt = true) :
    (branchOpt = none →
        branchNameOf flags branchOpt (readMeta env) n
          = some ("cowl/" ++ (match readMeta env with | some m => m.name | none => slugify n)))
    ∧ (∀ s, branchOpt = some s →
        branchNameOf flags branchOpt (readMeta env) n = some (jsTrim s))
    ∧ (∀ g br, (readMeta env).bind Meta.gitBase = some g → g ≠ "" →
        env.sourceHasDotGit = true → flags.contains "dry-run" = false →
        branchNameOf flags branchOpt (readMeta env) n = some br →
        Action.runCmd "git" ["-C", sp, "show-ref", "--verify", "refs/heads/" ++ br]
          ∈ resTrace (cmdMerge flags branchOpt ps sp env)) := by
  refine ⟨?_, ?_, ?_⟩
  · intro hbo
    subst hbo
    unfold branchNameOf
    rw [if_pos hwb]
    rfl
  · intro s hbo
    subst hbo
    unfold branchNameOf
    rw [if_pos hwb]
    rfl
  · intro g br hg hgne hdg hdr hbn
    have hsel : selectsGit (readMeta env) env.sourceHasDotGit = true := by
      simp [selectsGit, hg, hgne, hdg]
    have hbr : br ≠ "" := branchNameOf_ne_empty flags branchOpt (readMeta env) n br hbv hbn
    rw [cmdMerge_dispatch flags branchOpt ps sp env n hn hne hslug hex hsm hbv]
    apply mem_cleanupPhase_mono
    unfold strategyDispatch
    rw [if_pos hsel, hbn, hdr]
    exact mergeWithGit_showRef sp (variationPathOf env sp ps) _ br hbr env _

/-- Witness for the amended C4 theorem: the default target on `envBase`
is `cowl/demo` (the recorded name), and that branch is probed. -/
theorem branch_target_deterministic_witness :
    (branchNameOf ["branch"] none (readMeta envBase) "demo"
      = some ("cowl/" ++ (match readMeta envBase with | some m => m.name | none => slugify "demo")))
    ∧ Action.runCmd "git" ["-C", "/work/proj", "show-ref", "--verify", "refs/heads/" ++ "cowl/demo"]
        ∈ resTrace (cmdMerge ["branch"] none ["demo"] "/work/proj" envBase) :=
  ⟨(branch_target_deterministic_amended ["branch"] none ["demo"] "/work/proj" envBase
      "demo" rfl (by decide) (by decide) rfl rfl rfl rfl).1 rfl,
   (branch_target_deterministic_amended ["branch"] none ["demo"] "/work/proj" envBase
      "demo" rfl (by decide) (by decide) rfl rfl rfl rfl).2.2 "abc123" "cowl/demo"
      rfl (by decide) rfl rfl rfl⟩

/-! ### C6 -/

/-- C6.  The mirror reconciler propagates deletions iff `--delete` was
passed: the rsync invocation carries `--delete` exactly when the caller
opted in, and under the modelled sync semantics a file present only in
the source survives the merge without the option and is removed with
it. -/
theorem mirror_delete_opt_in (sp vp : String) (dryRun allowDelete : Bool)
    (variation source : String → Option String) (f : String) :
    ("--delete" ∈ mergeWithRsyncArgs sp vp dryRun allowDelete ↔ allowDelete = true)
    ∧ (variation f = none →
        mirrorSem variation source false f = source f
        ∧ mirrorSem variation source true f = none) := by
  constructor
  · have hvp : ¬ ("--delete" : String) = vp ++ "/" :=
      fun h => append_slash_ne vp "--delete" (by decide) h.symm
    have hsp : ¬ ("--delete" : String) = sp ++ "/" :=
      fun h => append_slash_ne sp "--delete" (by decide) h.symm
    cases dryRun <;> cases allowDelete <;>
      simp [mergeWithRsyncArgs, hvp, hsp]
  · intro h
    unfold mirrorSem
    rw [h]
    exact ⟨rfl, rfl⟩

/-- Witness for C6 on the §8 example: with `--delete` the args carry the
flag and `gone.txt` is removed; without it the args do not and `gone.txt`
survives. -/
theorem mirror_delete_opt_in_witness :
    ("--delete" ∈ mergeWithRsyncArgs "/work/proj" "/h/cowl/proj-abc123/demo" false true
      ↔ true = true)
    ∧ (mirrorSem exVariation exSource false "gone.txt" = exSource "gone.txt"
      ∧ mirrorSem exVariation exSource true "gone.txt" = none) :=
  ⟨(mirror_delete_opt_in "/work/proj" "/h/cowl/proj-abc123/demo" false true
      exVariation exSource "gone.txt").1,
   (mirror_delete_opt_in "/work/proj" "/h/cowl/proj-abc123/demo" false true
      exVariation exSource "gone.txt").2 rfl⟩

/-! ### C7 -/

/-- C7, counterexample.  Neither reconciler excludes anything: the mirror
rsync argument list contains no `--exclude`, and an untracked file named
`.cowl.json` reported by `git ls-files` is written verbatim into the
transfer list and copied into the source. -/
theorem reconciler_no_exclusion_counterexample :
    ("--exclude" ∉ mergeWithRsyncArgs "/work/proj" "/h/cowl/proj-abc123/demo" false false)
    ∧ untrackedFiles envUntracked = ["new.txt", ".cowl.json"]
    ∧ Action.writeFileList ("/tmp/cowl-x" ++ "/files")
        (String.intercalate "\x00" ["new.txt", ".cowl.json"] ++ "\x00")
        ∈ resTrace (cmdMerge [] none ["demo"] "/work/proj" envUntracked) := by
  refine ⟨by decide, rfl, by decide⟩

/-- C7, amended.  Neither reconciler applies any exclusion: the mirror
rsync argument list never contains `--exclude` (the engine's registry
lives outside the variation tree, so no exclusion is needed), and the
untracked-file copy writes the enumerated list verbatim — unfiltered —
to the transfer list it hands rsync. -/
theorem reconciler_exclusion_amended (s v : String) (dr del : Bool)
    (files : List String) (env : Env) (tr : List Action)
    (hf : ¬ files = []) (hc : commandExists env.rsyncProbe = true) :
    ("--exclude" ∉ mergeWithRsyncArgs s v dr del)
    ∧ resTrace (copyUntrackedWithRsync v s files env tr)
        = tr ++ [Action.runCmd "rsync" ["--version"],
                 Action.writeFileList (env.tmpDir ++ "/files")
                   (String.intercalate "\x00" files ++ "\x00"),
                 Action.runCmd "rsync"
                   ["-a", "--from0", "--files-from=" ++ (env.tmpDir ++ "/files"),
                    v ++ "/", s ++ "/"]] := by
  constructor
  · have hv : ¬ ("--exclude" : String) = v ++ "/" :=
      fun h => append_slash_ne v "--exclude" (by decide) h.symm
    have hs : ¬ ("--exclude" : String) = s ++ "/" :=
      fun h => append_slash_ne s "--exclude" (by decide) h.symm
    cases dr <;> cases del <;> simp [mergeWithRsyncArgs, hv, hs]
  · exact copyUntracked_run v s files env tr hf hc

/-- Witness for the amended C7 theorem at a concrete file list containing
`.cowl.json`. -/
theorem reconciler_exclusion_witness :
    ("--exclude" ∉ mergeWithRsyncArgs "/work/proj" "/h/cowl/proj-abc123/demo" false false)
    ∧ resTrace (copyUntrackedWithRsync "/h/cowl/proj-abc123/demo" "/work/proj"
          ["new.txt", ".cowl.json"] envBase [])
        = [] ++ [Action.runCmd "rsync" ["--version"],
                 Action.writeFileList (envBase.tmpDir ++ "/files")
                   (String.intercalate "\x00" ["new.txt", ".cowl.json"] ++ "\x00"),
                 Action.runCmd "rsync"
                   ["-a", "--from0", "--files-from=" ++ (envBase.tmpDir ++ "/files"),
                    "/h/cowl/proj-abc123/demo" ++ "/", "/work/proj" ++ "/"]] :=
  reconciler_exclusion_amended "/work/proj" "/h/cowl/proj-abc123/demo" false false
    ["new.txt", ".cowl.json"] envBase [] (by decide) rfl

/-! ### C8 -/

/-- C8, counterexample.  The claim says that whenever the clone reports a
fatal copy failure, any partially-created destination has been removed
before the error is reported.  Here the CoW attempt fails without
creating the destination, and the plain fallback fails after partially
creating it: the fatal error is reported while the destination still
exists. -/
theorem clone_partial_dest_counterexample :
    (cowCopyDir "/src" "/dst" cowEnvFallbackFail).err = some ("Copy failed: " ++ "disk full")
    ∧ (cowCopyDir "/src" "/dst" cowEnvFallbackFail).destExists = true := by
  exact ⟨rfl, rfl⟩

/-- C8, amended.  CoW failure is never fatal: the fallback copy always
runs after it (removing whatever the CoW attempt left, before the
fallback starts), on fallback success a warning is logged and the clone
succeeds; a fatal copy error occurs exactly when both copies fail — and
in that case a destination partially created by the failed fallback
itself is left in place when the error is reported. -/
theorem clone_cow_failure_nonfatal_amended (s d : String) (env : CowEnv)
    (hinit : env.destExistsInitially = false) :
    (env.cowResult.status ≠ 0 → env.fallbackResult.status = 0 →
        (cowCopyDir s d env).err = none)
    ∧ ((∃ m, (cowCopyDir s d env).err = some m) ↔
        (env.cowResult.status ≠ 0 ∧ env.fallbackResult.status ≠ 0))
    ∧ (env.cowResult.status ≠ 0 →
        (cowCopyDir s d env).trace
          = (if env.parentExists then [] else [Action.mkdirp (dirnameOf d)])
            ++ [Action.runCmd "cp"
                  (if env.darwin then ["-c", "-R", s, d] else ["-a", "--reflink=auto", s, d])]
            ++ (if env.destPartialAfterCow then [Action.rmTree d] else [])
            ++ [Action.runCmd "cp" (if env.darwin then ["-R", s, d] else ["-a", s, d])]
            ++ (if env.fallbackResult.status = 0 then
                  [Action.warn "CoW clone failed; fell back to standard copy."] else []))
    ∧ (env.cowResult.status ≠ 0 → env.fallbackResult.status ≠ 0 →
        (cowCopyDir s d env).destExists = env.destPartialAfterFallback) := by
  unfold cowCopyDir
  rw [if_neg (by rw [hinit]; exact Bool.false_ne_true)]
  try dsimp only
  by_cases hcow : env.cowResult.status = 0
  · rw [if_pos hcow]
    refine ⟨fun hc _ => absurd hcow hc, by simp [hcow], fun hc => absurd hcow hc,
      fun hc _ => absurd hcow hc⟩
  · rw [if_neg hcow]
    by_cases hfb : env.fallbackResult.status ≠ 0
    · rw [if_pos hfb]
      refine ⟨fun _ h0 => absurd h0 hfb, by simp [hcow, hfb], ?_, fun _ _ => rfl⟩
      intro _
      cases hdp : env.destPartialAfterCow <;> simp [hdp, hfb, List.append_assoc]
    · rw [if_neg hfb]
      push_neg at hfb
      refine ⟨fun _ _ => rfl, by simp [hfb], ?_, fun _ hne => absurd hfb hne⟩
      intro _
      cases hdp : env.destPartialAfterCow <;> simp [hdp, hfb, List.append_assoc]

/-- Witness for the amended C8 theorem on both concrete clone
environments (fallback succeeding, fallback failing). -/
theorem clone_cow_failure_witness :
    ((cowCopyDir "/src" "/dst" cowEnvFallbackOk).err = none)
    ∧ ((cowCopyDir "/src" "/dst" cowEnvFallbackFail).destExists
        = cowEnvFallbackFail.destPartialAfterFallback) :=
  ⟨(clone_cow_failure_nonfatal_amended "/src" "/dst" cowEnvFallbackOk rfl).1
      (by decide) rfl,
   (clone_cow_failure_nonfatal_amended "/src" "/dst" cowEnvFallbackFail rfl).2.2.2
      (by decide) (by decide)⟩

/-! ### C10 -/

/-- C10.  A missing or unparseable registry entry makes `readMeta` return
`none`; `cmdMerge` on an existing variation then runs the mirror
reconciler regardless of whether the source is a git repository (no git
command is ever issued), and the cross-source guard cannot fire since no
source is recorded. -/
theorem corrupt_meta_downgrades_to_mirror (flags : List String)
    (ps : List String) (sp : String) (env : Env) (n : String)
    (hmf : env.metaFileExists = false ∨ env.metaParse = none)
    (hn : ps.head? = some n) (hne : n ≠ "") (hslug : slugify n ≠ "")
    (hex : env.variationExists = true)
    (hnb : flags.contains "branch" = false)
    (hc : commandExists env.rsyncProbe = true) :
    readMeta env = none
    ∧ Action.runCmd "rsync"
        (mergeWithRsyncArgs sp (variationPathOf env sp ps)
          (flags.contains "dry-run") (flags.contains "delete"))
        ∈ resTrace (cmdMerge flags none ps sp env)
    ∧ (∀ args, Action.runCmd "git" args ∉ resTrace (cmdMerge flags none ps sp env)) := by
  have hmeta : readMeta env = none := by
    unfold readMeta
    rcases hmf with h | h
    · rw [h, if_neg Bool.false_ne_true]
    · cases hmfe : env.metaFileExists
      · rw [if_neg Bool.false_ne_true]
      · rw [if_pos rfl]
        exact h
  have hwb : wantsBranchOf flags none = false := by
    unfold wantsBranchOf
    rw [hnb]
    rfl
  have hsel : selectsGit (readMeta env) env.sourceHasDotGit = false := by
    rw [hmeta]
    rfl
  have hEq := cmdMerge_dispatch flags none ps sp env n hn hne hslug hex
    (by rw [hmeta]; rfl) rfl
  refine ⟨hmeta, ?_, ?_⟩
  · rw [hEq]
    apply mem_cleanupPhase_mono
    unfold strategyDispatch
    rw [if_neg (by rw [hsel]; exact Bool.false_ne_true), if_neg (by rw [hwb]; exact Bool.false_ne_true)]
    rw [mergeWithRsync_run sp (variationPathOf env sp ps)
      (flags.contains "dry-run") (flags.contains "delete") env [] hc]
    simp
  · intro args hin
    rw [hEq] at hin
    rcases mem_cleanupPhase hin with h | h | h
    · unfold strategyDispatch at h
      rw [if_neg (by rw [hsel]; exact Bool.false_ne_true),
          if_neg (by rw [hwb]; exact Bool.false_ne_true)] at h
      rcases mem_mergeWithRsync h with h2 | h2 | h2
      · simp at h2
      · injection h2 with hc1 hc2
        exact absurd hc1 (by decide)
      · injection h2 with hc1 hc2
        exact absurd hc1 (by decide)
    · cases h
    · cases h

/-- Witness for C10 on a concrete environment with an unparseable
registry entry (`metaParse = none`) and a git source. -/
theorem corrupt_meta_downgrades_witness :
    readMeta { envBase with metaParse := none } = none
    ∧ Action.runCmd "rsync"
        (mergeWithRsyncArgs "/work/proj"
          (variationPathOf { envBase with metaParse := none } "/work/proj" ["demo"])
          false false)
        ∈ resTrace (cmdMerge [] none ["demo"] "/work/proj" { envBase with metaParse := none }) :=
  ⟨(corrupt_meta_downgrades_to_mirror [] ["demo"] "/work/proj"
      { envBase with metaParse := none } "demo" (Or.inr rfl) rfl (by decide) (by decide)
      rfl rfl rfl).1,
   (corrupt_meta_downgrades_to_mirror [] ["demo"] "/work/proj"
      { envBase with metaParse := none } "demo" (Or.inr rfl) rfl (by decide) (by decide)
      rfl rfl rfl).2.1⟩


end Cowl
